import Mathlib

set_option maxRecDepth 16384

/-
Verification of the AI-CODE-DEBUGGER repository (src/AIdebugger.py).

Python strings are modelled as `List Char`; byte buffers as `List Nat`.
External library calls (imghdr.what, bytes.decode, the Vision OCR call and
the generative-model call) are modelled as explicit function parameters,
since they are environment inputs, not code of this repository.

The extraction step of `analyze_code` (lines 154-193 of the source) is the
composition: strip the reply, strip one leading markdown fence
(re.sub r"(?i)^\s*(```json|```)"), strip control characters 0x00-0x1F,
apply the five textual repairs (str.replace), and run json.loads; a parse
failure yields the dict containing the single key "error".
-/

/-- Single-quote character (code 39), kept as a named constant. -/
def squote : Char := Char.ofNat 39

/-- Backtick character (code 96), kept as a named constant. -/
def backtick : Char := Char.ofNat 96

/-- Python str.strip default whitespace (ASCII part): space, \t, \n, \v, \f, \r. -/
def pyIsSpace (c : Char) : Bool :=
  c == ' ' || (9 ≤ c.toNat && c.toNat ≤ 13)

/-- Python str.strip(): drop leading and trailing whitespace. -/
def pyStrip (s : List Char) : List Char :=
  ((s.dropWhile pyIsSpace).reverse.dropWhile pyIsSpace).reverse

/-- Boolean test that pat is a prefix of s. -/
def leadsWith : List Char → List Char → Bool
  | [], _ => true
  | _ :: _, [] => false
  | p :: ps, c :: cs => p == c && leadsWith ps cs

/-- Fuelled worker for Python str.replace: leftmost, non-overlapping. -/
def pyReplaceF (pat rep : List Char) : Nat → List Char → List Char
  | _, [] => []
  | 0, s => s
  | fuel+1, c :: cs =>
    if leadsWith pat (c :: cs) && !pat.isEmpty then
      rep ++ pyReplaceF pat rep fuel ((c :: cs).drop pat.length)
    else
      c :: pyReplaceF pat rep fuel cs

/-- Python str.replace(pat, rep): every occurrence, scanning left to right. -/
def pyReplace (pat rep s : List Char) : List Char :=
  pyReplaceF pat rep s.length s

/-- The substitution re.sub(r"(?i)^\s*(```json|```)", "", s): without
re.MULTILINE the anchor matches only at position 0, so at most one leading
fence marker (together with the whitespace before it) is removed; a
trailing fence is left in place. -/
def stripLeadingFence (s : List Char) : List Char :=
  let t := s.dropWhile pyIsSpace
  if t.take 3 = [backtick, backtick, backtick] then
    if ((t.drop 3).take 4).map Char.toLower = [('j' : Char), ('s' : Char), ('o' : Char), ('n' : Char)] then
      t.drop 7
    else
      t.drop 3
  else s

/-- The substitution re.sub(r"[\x00-\x1F]", "", s): drop every control
character, newlines included. -/
def stripControl (s : List Char) : List Char :=
  s.filter (fun c => decide (32 ≤ c.toNat))

/-- The repair chain of analyze_code: single quote to double quote, Python
literals to JSON literals, and trailing comma before a closing brace. -/
def repairText (s : List Char) : List Char :=
  pyReplace ((",\n\x7d").data) (("\n\x7d").data)
    (pyReplace (("None").data) (("null").data)
      (pyReplace (("False").data) (("false").data)
        (pyReplace (("True").data) (("true").data)
          (pyReplace [squote] [('"' : Char)] s))))

/-- JSON values as produced by Python json.loads; numeric literals keep
their source text, object members keep their textual order. -/
inductive Json where
  | null : Json
  | bool (b : Bool) : Json
  | num (tok : List Char) : Json
  | str (s : List Char) : Json
  | arr (elems : List Json) : Json
  | obj (members : List (List Char × Json)) : Json

/-- JSON inter-token whitespace: space, \t, \n, \r. -/
def jsonWs (c : Char) : Bool :=
  c == ' ' || c == Char.ofNat 9 || c == '\n' || c == Char.ofNat 13

/-- Drop leading JSON whitespace. -/
def skipWs : List Char → List Char
  | [] => []
  | c :: cs => if jsonWs c then skipWs cs else c :: cs

/-- Value of a hexadecimal digit. -/
def hexVal (c : Char) : Option Nat :=
  if c.isDigit then some (c.toNat - 48)
  else if 'a' ≤ c ∧ c ≤ 'f' then some (c.toNat - 87)
  else if 'A' ≤ c ∧ c ≤ 'F' then some (c.toNat - 55)
  else none

/-- Single-character JSON string escapes. -/
def escChar (e : Char) : Option Char :=
  if e = '"' then some '"'
  else if e = '\\' then some '\\'
  else if e = '/' then some '/'
  else if e = 'b' then some (Char.ofNat 8)
  else if e = 'f' then some (Char.ofNat 12)
  else if e = 'n' then some '\n'
  else if e = 'r' then some (Char.ofNat 13)
  else if e = 't' then some (Char.ofNat 9)
  else none

/-- Parse the body of a JSON string after the opening quote, strict mode:
a literal control character is an error, as in Python json.loads. -/
def parseStringBody : List Char → Option (List Char × List Char)
  | [] => none
  | c :: cs =>
    if c = '"' then some ([], cs)
    else if c = '\\' then
      match cs with
      | 'u' :: a :: b :: c2 :: d :: cs2 =>
        match hexVal a, hexVal b, hexVal c2, hexVal d with
        | some ha, some hb, some hc, some hd =>
          (parseStringBody cs2).map (fun p => (Char.ofNat (((ha * 16 + hb) * 16 + hc) * 16 + hd) :: p.1, p.2))
        | _, _, _, _ => none
      | e :: cs2 =>
        match escChar e with
        | some ec => (parseStringBody cs2).map (fun p => (ec :: p.1, p.2))
        | none => none
      | [] => none
    else if c.toNat < 32 then none
    else (parseStringBody cs).map (fun p => (c :: p.1, p.2))

/-- Integer part of a JSON number: 0, or a nonzero digit followed by digits. -/
def parseIntDigits : List Char → Option (List Char × List Char)
  | [] => none
  | c :: cs =>
    if c = '0' then some ([c], cs)
    else if c.isDigit then
      some (c :: cs.takeWhile Char.isDigit, cs.dropWhile Char.isDigit)
    else none

/-- Optional fractional part of a JSON number. -/
def parseFracPart : List Char → Option (List Char × List Char)
  | '.' :: cs =>
    if (cs.takeWhile Char.isDigit).isEmpty then none
    else some ('.' :: cs.takeWhile Char.isDigit, cs.dropWhile Char.isDigit)
  | cs => some ([], cs)

/-- Exponent digits after the letter e, with an optional sign. -/
def parseExpTail (e0 : Char) : List Char → Option (List Char × List Char)
  | s :: cs =>
    if s = '+' ∨ s = '-' then
      if (cs.takeWhile Char.isDigit).isEmpty then none
      else some (e0 :: s :: cs.takeWhile Char.isDigit, cs.dropWhile Char.isDigit)
    else if s.isDigit then
      some (e0 :: (s :: cs).takeWhile Char.isDigit, (s :: cs).dropWhile Char.isDigit)
    else none
  | [] => none

/-- Optional exponent part of a JSON number. -/
def parseExpPart : List Char → Option (List Char × List Char)
  | c :: cs =>
    if c = 'e' ∨ c = 'E' then parseExpTail c cs
    else some ([], c :: cs)
  | [] => some ([], [])

/-- Fraction and exponent after the integer digits of a number token. -/
def parseNumAfterInt (pre r1 : List Char) : Option (List Char × List Char) :=
  match parseFracPart r1 with
  | none => none
  | some (fd, r2) =>
    match parseExpPart r2 with
    | none => none
    | some (ed, r3) => some (pre ++ fd ++ ed, r3)

/-- A full JSON number token. -/
def parseNumberToken (cs : List Char) : Option (List Char × List Char) :=
  match cs with
  | '-' :: cs2 =>
    match parseIntDigits cs2 with
    | none => none
    | some (ds, r1) => parseNumAfterInt ('-' :: ds) r1
  | _ =>
    match parseIntDigits cs with
    | none => none
    | some (ds, r1) => parseNumAfterInt ds r1

mutual

/-- Recursive-descent JSON value parser with fuel, following the grammar
accepted by Python json.loads (including NaN and Infinity). -/
def parseValue : Nat → List Char → Option (Json × List Char)
  | 0, _ => none
  | fuel+1, cs0 =>
    match skipWs cs0 with
    | [] => none
    | c :: rest =>
      if c = '{' then
        let r1 := skipWs rest
        if r1.head? = some '}' then some (Json.obj [], r1.tail)
        else (parseMembers fuel r1).map (fun p => (Json.obj p.1, p.2))
      else if c = '[' then
        let r1 := skipWs rest
        if r1.head? = some ']' then some (Json.arr [], r1.tail)
        else (parseItems fuel r1).map (fun p => (Json.arr p.1, p.2))
      else if c = '"' then
        (parseStringBody rest).map (fun p => (Json.str p.1, p.2))
      else if c = 't' then
        match rest with
        | 'r' :: 'u' :: 'e' :: r2 => some (Json.bool true, r2)
        | _ => none
      else if c = 'f' then
        match rest with
        | 'a' :: 'l' :: 's' :: 'e' :: r2 => some (Json.bool false, r2)
        | _ => none
      else if c = 'n' then
        match rest with
        | 'u' :: 'l' :: 'l' :: r2 => some (Json.null, r2)
        | _ => none
      else if c = 'N' then
        match rest with
        | 'a' :: 'N' :: r2 => some (Json.num (("NaN").data), r2)
        | _ => none
      else if c = 'I' then
        match rest with
        | 'n' :: 'f' :: 'i' :: 'n' :: 'i' :: 't' :: 'y' :: r2 => some (Json.num (("Infinity").data), r2)
        | _ => none
      else if c = '-' then
        if leadsWith (("Infinity").data) rest then
          some (Json.num (("-Infinity").data), rest.drop 8)
        else
          (parseNumberToken (c :: rest)).map (fun p => (Json.num p.1, p.2))
      else if c.isDigit then
        (parseNumberToken (c :: rest)).map (fun p => (Json.num p.1, p.2))
      else none

/-- Members of a JSON object after the opening brace (nonempty case). -/
def parseMembers : Nat → List Char → Option (List (List Char × Json) × List Char)
  | 0, _ => none
  | fuel+1, cs =>
    match cs with
    | '"' :: rest =>
      match parseStringBody rest with
      | none => none
      | some (key, rest2) =>
        match skipWs rest2 with
        | ':' :: rest3 =>
          match parseValue fuel rest3 with
          | none => none
          | some (v, rest4) =>
            match skipWs rest4 with
            | ',' :: rest5 => (parseMembers fuel (skipWs rest5)).map (fun p => ((key, v) :: p.1, p.2))
            | '}' :: rest5 => some ([(key, v)], rest5)
            | _ => none
        | _ => none
    | _ => none

/-- Items of a JSON array after the opening bracket (nonempty case). -/
def parseItems : Nat → List Char → Option (List Json × List Char)
  | 0, _ => none
  | fuel+1, cs =>
    match parseValue fuel cs with
    | none => none
    | some (v, rest) =>
      match skipWs rest with
      | ',' :: rest2 => (parseItems fuel (skipWs rest2)).map (fun p => (v :: p.1, p.2))
      | ']' :: rest2 => some ([v], rest2)
      | _ => none

end

/-- Python json.loads: parse one value and require only whitespace after it.
The fuel 2 * length + 8 dominates the recursion depth, which consumes at
most two units per input character. -/
def jsonLoads (s : List Char) : Option Json :=
  match parseValue (2 * s.length + 8) s with
  | some (v, rest) => if skipWs rest = [] then some v else none
  | none => none

/-- The result dict built in both except branches of analyze_code when the
parse of the repaired reply fails. -/
def errorObj : Json :=
  Json.obj [((("error").data), Json.str (("Failed to parse AI response").data))]

/-- The cleaning pipeline of analyze_code applied to response.text:
strip, remove one leading markdown fence, remove control characters. -/
def cleanPipeline (s : List Char) : List Char :=
  stripControl (stripLeadingFence (pyStrip s))

/-- The repaired text finally handed to json.loads. -/
def repairedOf (s : List Char) : List Char :=
  repairText (cleanPipeline s)

/-- The whole extraction step of analyze_code on the raw reply text: the
parsed JSON value when json.loads succeeds, the error dict otherwise. -/
def analyzeExtract (respText : List Char) : Json :=
  match jsonLoads (repairedOf respText) with
  | some v => v
  | none => errorObj

/-- Outcome of the upstream generate_content call: the reply text, or an
exception message (caught by the generic except branch). -/
inductive ModelReply where
  | success (text : List Char) : ModelReply
  | failure (exnMsg : List Char) : ModelReply

/-- analyze_code (lines 154-193): build the prompt, call the model, extract.
An upstream exception is converted to the "Analysis failed" error dict. -/
def analyze_code (reply : ModelReply) : Json :=
  match reply with
  | ModelReply.failure e =>
    Json.obj [((("error").data), Json.str ((("Analysis failed: ").data) ++ e))]
  | ModelReply.success t => analyzeExtract t

/-- Lookup of a key in a parsed JSON object, none on any other value. -/
def jGet (j : Json) (k : List Char) : Option Json :=
  match j with
  | Json.obj ms => (ms.find? (fun p => p.1 == k)).map (fun p => p.2)
  | _ => none

/-- An uploaded file: its (lowercased or raw) name and its raw bytes. -/
structure UploadedFile where
  name : List Char
  bytes : List Nat

/-- MAX_IMAGE_SIZE = 5 * 1024 * 1024 (line 14). -/
def MAX_IMAGE_SIZE : Nat := 5 * 1024 * 1024

/-- ALLOWED_IMAGE_TYPES (line 15); imghdr reports jpeg for JPG files. -/
def ALLOWED_IMAGE_TYPES : List (List Char) := [(("jpeg").data), (("png").data)]

/-- ALLOWED_CODE_EXTENSIONS (line 16). -/
def ALLOWED_CODE_EXTENSIONS : List (List Char) :=
  [(("py").data), (("java").data), (("js").data), (("cpp").data),
   (("html").data), (("css").data), (("php").data)]

/-- MAX_CODE_LENGTH = 5000 (line 17). -/
def MAX_CODE_LENGTH : Nat := 5000

/-- The reason string of the image size check (line 82). -/
def imageSizeMsg (n : Nat) : List Char :=
  (("File too large (").data) ++ (Nat.repr (n / 1024)).data ++ (("KB > 5MB)").data)

/-- The reason string of the image type check (line 87): the sniffed type
name, or unknown when imghdr reports None or an empty name. -/
def imageTypeMsg (t : Option (List Char)) : List Char :=
  (("Unsupported format: ").data) ++
    (match t with
     | some u => if u = [] then ("unknown").data else u
     | none => ("unknown").data)

/-- validate_image (lines 75-91): size first, then imghdr content sniffing;
the file name is never consulted. imghdr.what is the parameter sniff. -/
def validate_image (sniff : List Nat → Option (List Char)) (f : UploadedFile) :
    Bool × List Char :=
  if MAX_IMAGE_SIZE < f.bytes.length then (false, imageSizeMsg f.bytes.length)
  else
    match sniff f.bytes with
    | some t =>
      if t ∈ ALLOWED_IMAGE_TYPES then (true, [])
      else (false, imageTypeMsg (some t))
    | none => (false, imageTypeMsg none)

/-- The extension computed at lines 95-96: lowercase the name and take the
part after the last dot (the whole name when there is no dot). -/
def extOf (name : List Char) : List Char :=
  ((name.map Char.toLower).splitOn '.').getLastD []

/-- The reason string of the code length check (line 103). -/
def codeLenMsg (n : Nat) : List Char :=
  (("File too large (").data) ++ (Nat.repr n).data ++ ((" > 5000 chars)").data)

/-- validate_code_file (lines 93-110): extension allow-list first, then
UTF-8 decoding, then the character-count limit. bytes.decode is the
parameter decode (none models UnicodeDecodeError). -/
def validate_code_file (decode : List Nat → Option (List Char)) (f : UploadedFile) :
    Bool × List Char × List Char :=
  let ext := extOf f.name
  if ext ∈ ALLOWED_CODE_EXTENSIONS then
    match decode f.bytes with
    | none => (false, [], ("Invalid text encoding").data)
    | some content =>
      if MAX_CODE_LENGTH < content.length then (false, [], codeLenMsg content.length)
      else (true, content, ext)
  else (false, [], (("Unsupported file type: .").data) ++ extOf f.name)

/-- Exceptions the OCR call can raise, as distinguished by the except
clauses at lines 147-152. -/
inductive OcrExn where
  | timeoutExn : OcrExn
  | apiCallExn (msg : List Char) : OcrExn
  | otherExn (msg : List Char) : OcrExn

/-- The fields of the Vision response read by the code: error.message and
the description of each text annotation entry. -/
structure VisionResponse where
  errorMessage : List Char
  textBlocks : List (List Char)

/-- The retry loop of lines 121-133 for a remaining attempt budget and a
current attempt index: on an exception at the last attempt re-raise,
otherwise sleep 2 ^ attempt seconds and retry. Returns the outcome, the
list of sleep durations, and the number of calls made. -/
def ocrLoop (call : Nat → Except OcrExn VisionResponse) :
    Nat → Nat → Except OcrExn VisionResponse × List Nat × Nat
  | 0, _ => (Except.error (OcrExn.otherExn []), [], 0)
  | 1, i => (call i, [], 1)
  | k+2, i =>
    match call i with
    | Except.ok r => (Except.ok r, [], 1)
    | Except.error _ =>
      let r2 := ocrLoop call (k+1) (i+1)
      (r2.1, 2 ^ i :: r2.2.1, r2.2.2 + 1)

/-- Fuelled worker for re.sub(r"\n\x7b3,\x7d", "\n\n", s): a maximal run of
three or more newlines becomes exactly two. -/
def collapseNlF : Nat → List Char → List Char
  | _, [] => []
  | 0, s => s
  | fuel+1, c :: cs =>
    if c = '\n' then
      (if 2 ≤ (cs.takeWhile (fun d => d == '\n')).length then [('\n' : Char), ('\n' : Char)]
       else '\n' :: cs.takeWhile (fun d => d == '\n')) ++
        collapseNlF fuel (cs.dropWhile (fun d => d == '\n'))
    else c :: collapseNlF fuel cs

/-- Collapse runs of three or more newlines to two (line 143). -/
def collapseNewlines (s : List Char) : List Char := collapseNlF s.length s

/-- The substitution re.sub(r"(?<!\n)\n(?!\n)", " ", s) of line 144: a
newline neither preceded nor followed by a newline in the scanned text
becomes a space. prev is the previous character of the scanned text. -/
def rmSingleNl (prev : Option Char) : List Char → List Char
  | [] => []
  | c :: cs =>
    if c = '\n' ∧ prev ≠ some '\n' ∧ cs.head? ≠ some '\n' then
      ' ' :: rmSingleNl (some '\n') cs
    else
      c :: rmSingleNl (some c) cs

/-- The full text cleaning of lines 143-144: collapse newline runs, strip,
then replace each remaining isolated newline with a space. -/
def cleanOcr (t : List Char) : List Char :=
  rmSingleNl none (pyStrip (collapseNewlines t))

/-- The transform the specification sentence of C9 claims for the OCR text:
only collapse runs of three or more newlines to two and trim surrounding
whitespace. Stated from the claim, for comparison with cleanOcr. -/
def specCollapseTrim (t : List Char) : List Char :=
  pyStrip (collapseNewlines t)

/-- extract_code_from_image (lines 112-152): credential check, the retry
loop, the response checks, and the text cleaning; every exception of the
loop is converted to a typed failure message by the except clauses. -/
def extract_code_from_image (hasCreds : Bool)
    (call : Nat → Except OcrExn VisionResponse) :
    (Bool × List Char) × List Nat × Nat :=
  if hasCreds = false then ((false, ("Missing Google Cloud credentials").data), [], 0)
  else
    match ocrLoop call 3 0 with
    | (Except.error e, sleeps, n) =>
      ((false,
        match e with
        | OcrExn.timeoutExn => ("OCR processing timed out").data
        | OcrExn.apiCallExn m => (("API Error: ").data) ++ m
        | OcrExn.otherExn m => (("Processing Error: ").data) ++ m), sleeps, n)
    | (Except.ok resp, sleeps, n) =>
      if resp.errorMessage ≠ [] then
        ((false, (("API Error: ").data) ++ resp.errorMessage), sleeps, n)
      else
        match resp.textBlocks with
        | [] => ((false, ("No text detected").data), sleeps, n)
        | t :: _ => ((true, cleanOcr t), sleeps, n)

def safeChar (c : Char) : Bool :=
  decide (32 ≤ c.toNat ∧ c ≠ '"' ∧ c ≠ '\\' ∧ c ≠ squote ∧ c ≠ 'T' ∧ c ≠ 'F' ∧ c ≠ 'N')

def safeStr (s : List Char) : Bool := s.all safeChar

def renderJString (s : List Char) : List Char := '"' :: s ++ [('"' : Char)]

def renderStrItems : List (List Char) → List Char
  | [] => []
  | [s] => renderJString s
  | s :: s2 :: rest => renderJString s ++ ',' :: ' ' :: renderStrItems (s2 :: rest)

def renderStrArr (ss : List (List Char)) : List Char :=
  '[' :: renderStrItems ss ++ [(']' : Char)]

def memberRender (key vr : List Char) : List Char :=
  '"' :: key ++ '"' :: ':' :: ' ' :: vr

def safeStrs (ss : List (List Char)) : Bool := ss.all safeStr

def bodyRender (b f : List (List Char)) (cc : List Char) (o e : List (List Char)) : List Char :=
  memberRender (("bugs").data) (renderStrArr b) ++ ',' :: ' ' ::
  (memberRender (("fixes").data) (renderStrArr f) ++ ',' :: ' ' ::
  (memberRender (("corrected_code").data) (renderJString cc) ++ ',' :: ' ' ::
  (memberRender (("optimizations").data) (renderStrArr o) ++ ',' :: ' ' ::
  memberRender (("explanation").data) (renderStrArr e))))

def renderReply (b f : List (List Char)) (cc : List Char) (o e : List (List Char)) : List Char :=
  '{' :: bodyRender b f cc o e ++ [('}' : Char)]

def replyJson (b f : List (List Char)) (cc : List Char) (o e : List (List Char)) : Json :=
  Json.obj [((("bugs").data), Json.arr (b.map Json.str)),
            ((("fixes").data), Json.arr (f.map Json.str)),
            ((("corrected_code").data), Json.str cc),
            ((("optimizations").data), Json.arr (o.map Json.str)),
            ((("explanation").data), Json.arr (e.map Json.str))]

def goodChar (c : Char) : Bool :=
  decide (32 ≤ c.toNat ∧ c ≠ squote ∧ c ≠ 'T' ∧ c ≠ 'F' ∧ c ≠ 'N')

def goodStr (s : List Char) : Bool := s.all goodChar

def bigImageBytes : List Nat := List.replicate 5242881 0

def longCode : List Char := List.replicate 5001 ('x' : Char)

/-
Theorems: parsing and pipeline lemmas first, then the claim theorems,
their counterexamples and their witnesses.
-/

theorem skipWs_no (c : Char) (cs : List Char) (h : jsonWs c = false) :
    skipWs (c :: cs) = c :: cs := by
  rw [skipWs.eq_def]; simp [h]

theorem parseStringBody_safe (s rest : List Char) (h : safeStr s = true) :
    parseStringBody (s ++ '"' :: rest) = some (s, rest) := by
  induction s with
  | nil =>
    rw [List.nil_append, parseStringBody.eq_def]
    simp
  | cons c cs ih =>
    simp only [safeStr, List.all_cons, Bool.and_eq_true] at h
    obtain ⟨hc, hcs⟩ := h
    simp only [safeChar, decide_eq_true_eq] at hc
    rw [List.cons_append, parseStringBody.eq_def]
    simp only []
    rw [if_neg hc.2.1, if_neg hc.2.2.1, if_neg (by omega : ¬ c.toNat < 32), ih hcs]
    rfl

theorem parseValue_string (fuel : Nat) (s rest : List Char) (h : safeStr s = true) :
    parseValue (fuel+1) ('"' :: (s ++ '"' :: rest)) = some (Json.str s, rest) := by
  rw [parseValue.eq_def]
  simp only []
  rw [skipWs_no '"' _ (by decide)]
  simp [parseStringBody_safe s rest h]

theorem skipWs_sp (ys : List Char) : skipWs (' ' :: ys) = skipWs ys := by
  rw [skipWs.eq_def]; simp [jsonWs]

theorem parseValue_space (fuel : Nat) (ys : List Char) :
    parseValue fuel (' ' :: ys) = parseValue fuel ys := by
  cases fuel with
  | zero => rfl
  | succ f =>
    rw [parseValue.eq_def]
    conv_rhs => rw [parseValue.eq_def]
    simp only []
    rw [skipWs_sp]

theorem memberRender_shape (key vr X : List Char) :
    memberRender key vr ++ X = '"' :: (key ++ '"' :: ':' :: ' ' :: (vr ++ X)) := by
  simp [memberRender]

theorem parseMembers_cons (fuel : Nat) (key vr tail : List Char) (v : Json)
    (hkey : safeStr key = true)
    (hv : parseValue fuel (vr ++ ',' :: ' ' :: tail) = some (v, ',' :: ' ' :: tail))
    (htail : skipWs tail = tail) :
    parseMembers (fuel+1) (memberRender key vr ++ ',' :: ' ' :: tail) =
      (parseMembers fuel tail).map (fun p => ((key, v) :: p.1, p.2)) := by
  rw [memberRender_shape, parseMembers.eq_def]
  simp only []
  rw [parseStringBody_safe key _ hkey]
  simp only []
  rw [skipWs_no ':' _ (by decide)]
  simp only []
  rw [parseValue_space, hv]
  simp only []
  rw [skipWs_no ',' _ (by decide)]
  simp only []
  rw [skipWs_sp, htail]

theorem parseMembers_last (fuel : Nat) (key vr rest : List Char) (v : Json)
    (hkey : safeStr key = true)
    (hv : parseValue fuel (vr ++ '}' :: rest) = some (v, '}' :: rest)) :
    parseMembers (fuel+1) (memberRender key vr ++ '}' :: rest) = some ([(key, v)], rest) := by
  rw [memberRender_shape, parseMembers.eq_def]
  simp only []
  rw [parseStringBody_safe key _ hkey]
  simp only []
  rw [skipWs_no ':' _ (by decide)]
  simp only []
  rw [parseValue_space, hv]
  simp only []
  rw [skipWs_no '}' _ (by decide)]
  simp

theorem renderStrItems_shape (s : List Char) (tail : List (List Char)) :
    ∃ u, renderStrItems (s :: tail) = '"' :: u := by
  cases tail with
  | nil => exact ⟨s ++ [('"' : Char)], by simp [renderStrItems, renderJString]⟩
  | cons s2 t2 =>
    exact ⟨s ++ '"' :: ',' :: ' ' :: renderStrItems (s2 :: t2),
      by simp [renderStrItems, renderJString]⟩

theorem parseItems_strings (ss : List (List Char)) :
    ∀ (s : List Char) (fuel : Nat) (rest : List Char),
    safeStr s = true → safeStrs ss = true → ss.length + 2 ≤ fuel →
    parseItems fuel (renderStrItems (s :: ss) ++ ']' :: rest) =
      some ((s :: ss).map Json.str, rest) := by
  induction ss with
  | nil =>
    intro s fuel rest hs _ hfuel
    obtain ⟨g, rfl⟩ : ∃ g, fuel = g + 2 := ⟨fuel - 2, by omega⟩
    rw [(show g + 2 = (g+1) + 1 by rfl)]
    rw [parseItems.eq_def]
    simp only []
    have hsh : renderStrItems [s] ++ ']' :: rest = '"' :: (s ++ '"' :: ']' :: rest) := by
      simp [renderStrItems, renderJString]
    rw [hsh, parseValue_string g s (']' :: rest) hs]
    simp only []
    rw [skipWs_no ']' _ (by decide)]
    simp
  | cons s2 ss ih =>
    intro s fuel rest hs hss hfuel
    obtain ⟨g, rfl⟩ : ∃ g, fuel = g + 1 := ⟨fuel - 1, by omega⟩
    rw [parseItems.eq_def]
    simp only []
    have hsh : renderStrItems (s :: s2 :: ss) ++ ']' :: rest =
        '"' :: (s ++ '"' :: ',' :: ' ' :: (renderStrItems (s2 :: ss) ++ ']' :: rest)) := by
      simp [renderStrItems, renderJString]
    rw [hsh]
    obtain ⟨g2, rfl⟩ : ∃ g2, g = g2 + 1 := ⟨g - 1, by omega⟩
    rw [parseValue_string g2 s _ hs]
    simp only []
    rw [skipWs_no ',' _ (by decide)]
    simp only []
    rw [skipWs_sp]
    obtain ⟨u, hu⟩ := renderStrItems_shape s2 ss
    rw [hu, List.cons_append, skipWs_no '"' _ (by decide), ← List.cons_append, ← hu]
    simp only [safeStrs, List.all_cons, Bool.and_eq_true] at hss
    rw [ih s2 (g2+1) rest hss.1 (by simp [safeStrs, hss.2]) (by simp at hfuel ⊢; omega)]
    rfl

theorem parseValue_strArr (fuel : Nat) (ss : List (List Char)) (rest : List Char)
    (h : safeStrs ss = true) (hfuel : ss.length + 3 ≤ fuel) :
    parseValue fuel (renderStrArr ss ++ rest) = some (Json.arr (ss.map Json.str), rest) := by
  obtain ⟨g, rfl⟩ : ∃ g, fuel = g + 1 := ⟨fuel - 1, by omega⟩
  rw [parseValue.eq_def]
  simp only []
  have hsh : renderStrArr ss ++ rest = '[' :: (renderStrItems ss ++ ']' :: rest) := by
    simp [renderStrArr]
  rw [hsh, skipWs_no '[' _ (by decide)]
  simp only []
  rw [if_neg (by decide : ¬ ('[' : Char) = '{')]
  rw [if_pos trivial]
  cases ss with
  | nil =>
    rw [(show renderStrItems [] = [] by rfl), List.nil_append, skipWs_no ']' _ (by decide)]
    simp
  | cons s ss =>
    obtain ⟨u, hu⟩ := renderStrItems_shape s ss
    rw [hu, List.cons_append, skipWs_no '"' _ (by decide)]
    simp only [List.head?_cons]
    rw [if_neg (by decide : ¬ (some ('"' : Char) = some (']' : Char))), ← List.cons_append, ← hu]
    simp only [safeStrs, List.all_cons, Bool.and_eq_true] at h
    rw [parseItems_strings ss s g rest h.1 (by simp [safeStrs, h.2]) (by simp at hfuel ⊢; omega)]
    rfl

theorem skipWs_memberRender (key vr X : List Char) :
    skipWs (memberRender key vr ++ X) = memberRender key vr ++ X := by
  rw [memberRender_shape]; exact skipWs_no '"' _ (by decide)

theorem parseValue_jString (fuel : Nat) (s X : List Char) (h : safeStr s = true) :
    parseValue (fuel+1) (renderJString s ++ X) = some (Json.str s, X) := by
  have hsh : renderJString s ++ X = '"' :: (s ++ '"' :: X) := by simp [renderJString]
  rw [hsh]
  exact parseValue_string fuel s X h

theorem parseValue_renderReply (fuel : Nat) (b f : List (List Char)) (cc : List Char)
    (o e : List (List Char)) (rest : List Char)
    (hb : safeStrs b = true) (hf : safeStrs f = true) (hcc : safeStr cc = true)
    (ho : safeStrs o = true) (he : safeStrs e = true)
    (hfuel : b.length + f.length + o.length + e.length + 12 ≤ fuel) :
    parseValue (fuel+1) (renderReply b f cc o e ++ rest) =
      some (replyJson b f cc o e, rest) := by
  obtain ⟨g, rfl⟩ : ∃ g, fuel = g + 5 := ⟨fuel - 5, by omega⟩
  rw [parseValue.eq_def]
  simp only []
  have hsh : renderReply b f cc o e ++ rest = '{' :: (bodyRender b f cc o e ++ '}' :: rest) := by
    simp [renderReply]
  rw [hsh, skipWs_no '{' _ (by decide)]
  simp only []
  rw [if_pos trivial]
  have hbody : bodyRender b f cc o e ++ '}' :: rest =
      memberRender (("bugs").data) (renderStrArr b) ++ ',' :: ' ' ::
      (memberRender (("fixes").data) (renderStrArr f) ++ ',' :: ' ' ::
      (memberRender (("corrected_code").data) (renderJString cc) ++ ',' :: ' ' ::
      (memberRender (("optimizations").data) (renderStrArr o) ++ ',' :: ' ' ::
      (memberRender (("explanation").data) (renderStrArr e) ++ '}' :: rest)))) := by
    simp [bodyRender]
  rw [hbody, skipWs_memberRender]
  have hh : (memberRender (("bugs").data) (renderStrArr b) ++ ',' :: ' ' ::
      (memberRender (("fixes").data) (renderStrArr f) ++ ',' :: ' ' ::
      (memberRender (("corrected_code").data) (renderJString cc) ++ ',' :: ' ' ::
      (memberRender (("optimizations").data) (renderStrArr o) ++ ',' :: ' ' ::
      (memberRender (("explanation").data) (renderStrArr e) ++ '}' :: rest))))).head? ≠ some '}' := by
    rw [memberRender_shape]
    simp
  rw [if_neg hh]
  have hv5 : parseValue g (renderStrArr e ++ '}' :: rest) =
      some (Json.arr (e.map Json.str), '}' :: rest) :=
    parseValue_strArr g e _ he (by simp at hfuel ⊢; omega)
  have hv4 : parseValue (g+1) (renderStrArr o ++ ',' :: ' ' ::
      (memberRender (("explanation").data) (renderStrArr e) ++ '}' :: rest)) =
      some (Json.arr (o.map Json.str), ',' :: ' ' ::
      (memberRender (("explanation").data) (renderStrArr e) ++ '}' :: rest)) :=
    parseValue_strArr (g+1) o _ ho (by simp at hfuel ⊢; omega)
  have hv3 : parseValue (g+2) (renderJString cc ++ ',' :: ' ' ::
      (memberRender (("optimizations").data) (renderStrArr o) ++ ',' :: ' ' ::
      (memberRender (("explanation").data) (renderStrArr e) ++ '}' :: rest))) =
      some (Json.str cc, ',' :: ' ' ::
      (memberRender (("optimizations").data) (renderStrArr o) ++ ',' :: ' ' ::
      (memberRender (("explanation").data) (renderStrArr e) ++ '}' :: rest))) := by
    obtain ⟨g2, hg2⟩ : ∃ g2, g + 2 = g2 + 1 := ⟨g + 1, rfl⟩
    rw [hg2]
    exact parseValue_jString g2 cc _ hcc
  have hv2 : parseValue (g+3) (renderStrArr f ++ ',' :: ' ' ::
      (memberRender (("corrected_code").data) (renderJString cc) ++ ',' :: ' ' ::
      (memberRender (("optimizations").data) (renderStrArr o) ++ ',' :: ' ' ::
      (memberRender (("explanation").data) (renderStrArr e) ++ '}' :: rest)))) =
      some (Json.arr (f.map Json.str), ',' :: ' ' ::
      (memberRender (("corrected_code").data) (renderJString cc) ++ ',' :: ' ' ::
      (memberRender (("optimizations").data) (renderStrArr o) ++ ',' :: ' ' ::
      (memberRender (("explanation").data) (renderStrArr e) ++ '}' :: rest)))) :=
    parseValue_strArr (g+3) f _ hf (by simp at hfuel ⊢; omega)
  have hv1 : parseValue (g+4) (renderStrArr b ++ ',' :: ' ' ::
      (memberRender (("fixes").data) (renderStrArr f) ++ ',' :: ' ' ::
      (memberRender (("corrected_code").data) (renderJString cc) ++ ',' :: ' ' ::
      (memberRender (("optimizations").data) (renderStrArr o) ++ ',' :: ' ' ::
      (memberRender (("explanation").data) (renderStrArr e) ++ '}' :: rest))))) =
      some (Json.arr (b.map Json.str), ',' :: ' ' ::
      (memberRender (("fixes").data) (renderStrArr f) ++ ',' :: ' ' ::
      (memberRender (("corrected_code").data) (renderJString cc) ++ ',' :: ' ' ::
      (memberRender (("optimizations").data) (renderStrArr o) ++ ',' :: ' ' ::
      (memberRender (("explanation").data) (renderStrArr e) ++ '}' :: rest))))) :=
    parseValue_strArr (g+4) b _ hb (by simp at hfuel ⊢; omega)
  rw [(show g + 5 = (g+4) + 1 by rfl),
    parseMembers_cons (g+4) _ _ _ _ (by decide) hv1 (skipWs_memberRender _ _ _),
    (show g + 4 = (g+3) + 1 by rfl),
    parseMembers_cons (g+3) _ _ _ _ (by decide) hv2 (skipWs_memberRender _ _ _),
    (show g + 3 = (g+2) + 1 by rfl),
    parseMembers_cons (g+2) _ _ _ _ (by decide) hv3 (skipWs_memberRender _ _ _),
    (show g + 2 = (g+1) + 1 by rfl),
    parseMembers_cons (g+1) _ _ _ _ (by decide) hv4 (skipWs_memberRender _ _ _),
    parseMembers_last g _ _ _ _ (by decide) hv5]
  rfl

theorem renderStrItems_len (ss : List (List Char)) :
    ss.length ≤ (renderStrItems ss).length := by
  induction ss with
  | nil => simp [renderStrItems]
  | cons s tail ih =>
    cases tail with
    | nil => simp [renderStrItems, renderJString]
    | cons s2 t2 =>
      rw [(show renderStrItems (s :: s2 :: t2) =
        renderJString s ++ ',' :: ' ' :: renderStrItems (s2 :: t2) by rfl)]
      simp only [List.length_append, List.length_cons, renderJString] at ih ⊢
      omega

theorem renderReply_len (b f : List (List Char)) (cc : List Char) (o e : List (List Char)) :
    b.length + f.length + o.length + e.length + 13 ≤
      2 * (renderReply b f cc o e).length + 8 := by
  have h1 := renderStrItems_len b
  have h2 := renderStrItems_len f
  have h3 := renderStrItems_len o
  have h4 := renderStrItems_len e
  simp only [renderReply, bodyRender, memberRender, renderStrArr,
    List.length_append, List.length_cons] at h1 h2 h3 h4 ⊢
  omega

theorem jsonLoads_renderReply (b f : List (List Char)) (cc : List Char)
    (o e : List (List Char))
    (hb : safeStrs b = true) (hf : safeStrs f = true) (hcc : safeStr cc = true)
    (ho : safeStrs o = true) (he : safeStrs e = true) :
    jsonLoads (renderReply b f cc o e) = some (replyJson b f cc o e) := by
  unfold jsonLoads
  have hlen := renderReply_len b f cc o e
  obtain ⟨g, hg⟩ : ∃ g, 2 * (renderReply b f cc o e).length + 8 = g + 1 :=
    ⟨2 * (renderReply b f cc o e).length + 7, by omega⟩
  rw [hg]
  have hp := parseValue_renderReply g b f cc o e [] hb hf hcc ho he (by omega)
  rw [List.append_nil] at hp
  rw [hp]
  rfl

theorem goodStr_app (a b : List Char) (ha : goodStr a = true) (hb : goodStr b = true) :
    goodStr (a ++ b) = true := by
  simp [goodStr, List.all_append] at ha hb ⊢
  exact ⟨ha, hb⟩

theorem goodStr_cons (c : Char) (s : List Char) (hc : goodChar c = true)
    (hs : goodStr s = true) : goodStr (c :: s) = true := by
  simp only [goodStr, List.all_cons, hc, Bool.true_and]
  exact hs

theorem safeStr_good (s : List Char) (h : safeStr s = true) : goodStr s = true := by
  simp only [safeStr, goodStr, List.all_eq_true] at h ⊢
  intro c hc
  have := h c hc
  simp only [safeChar, goodChar, decide_eq_true_eq] at this ⊢
  tauto

theorem goodStr_renderJString (s : List Char) (h : safeStr s = true) :
    goodStr (renderJString s) = true := by
  rw [(show renderJString s = '"' :: (s ++ [('"' : Char)]) by simp [renderJString])]
  exact goodStr_cons _ _ (by decide) (goodStr_app _ _ (safeStr_good s h) (by decide))

theorem goodStr_renderStrItems (ss : List (List Char)) (h : safeStrs ss = true) :
    goodStr (renderStrItems ss) = true := by
  induction ss with
  | nil => decide
  | cons s tail ih =>
    simp only [safeStrs, List.all_cons, Bool.and_eq_true] at h
    cases tail with
    | nil =>
      rw [(show renderStrItems [s] = renderJString s by rfl)]
      exact goodStr_renderJString s h.1
    | cons s2 t2 =>
      rw [(show renderStrItems (s :: s2 :: t2) =
        renderJString s ++ ',' :: ' ' :: renderStrItems (s2 :: t2) by rfl)]
      exact goodStr_app _ _ (goodStr_renderJString s h.1)
        (goodStr_cons _ _ (by decide) (goodStr_cons _ _ (by decide) (ih h.2)))

theorem goodStr_renderStrArr (ss : List (List Char)) (h : safeStrs ss = true) :
    goodStr (renderStrArr ss) = true := by
  rw [(show renderStrArr ss = '[' :: (renderStrItems ss ++ [(']' : Char)]) by simp [renderStrArr])]
  exact goodStr_cons _ _ (by decide)
    (goodStr_app _ _ (goodStr_renderStrItems ss h) (by decide))

theorem goodStr_memberRender (key vr : List Char) (hk : goodStr key = true)
    (hv : goodStr vr = true) : goodStr (memberRender key vr) = true := by
  rw [(show memberRender key vr = '"' :: (key ++ '"' :: ':' :: ' ' :: vr) by simp [memberRender])]
  exact goodStr_cons _ _ (by decide) (goodStr_app _ _ hk
    (goodStr_cons _ _ (by decide) (goodStr_cons _ _ (by decide)
      (goodStr_cons _ _ (by decide) hv))))

theorem goodStr_renderReply (b f : List (List Char)) (cc : List Char)
    (o e : List (List Char))
    (hb : safeStrs b = true) (hf : safeStrs f = true) (hcc : safeStr cc = true)
    (ho : safeStrs o = true) (he : safeStrs e = true) :
    goodStr (renderReply b f cc o e) = true := by
  have m1 := goodStr_memberRender (("bugs").data) _ (by decide) (goodStr_renderStrArr b hb)
  have m2 := goodStr_memberRender (("fixes").data) _ (by decide) (goodStr_renderStrArr f hf)
  have m3 := goodStr_memberRender (("corrected_code").data) _ (by decide) (goodStr_renderJString cc hcc)
  have m4 := goodStr_memberRender (("optimizations").data) _ (by decide) (goodStr_renderStrArr o ho)
  have m5 := goodStr_memberRender (("explanation").data) _ (by decide) (goodStr_renderStrArr e he)
  rw [(show renderReply b f cc o e = '{' :: (bodyRender b f cc o e ++ [('}' : Char)]) by
    simp [renderReply])]
  refine goodStr_cons _ _ (by decide) (goodStr_app _ _ ?_ (by decide))
  rw [bodyRender]
  exact goodStr_app _ _ m1 (goodStr_cons _ _ (by decide) (goodStr_cons _ _ (by decide)
    (goodStr_app _ _ m2 (goodStr_cons _ _ (by decide) (goodStr_cons _ _ (by decide)
      (goodStr_app _ _ m3 (goodStr_cons _ _ (by decide) (goodStr_cons _ _ (by decide)
        (goodStr_app _ _ m4 (goodStr_cons _ _ (by decide) (goodStr_cons _ _ (by decide) m5)))))))))))

theorem stripControl_id (s : List Char) (h : goodStr s = true) : stripControl s = s := by
  apply List.filter_eq_self.mpr
  intro c hc
  simp only [goodStr, List.all_eq_true] at h
  have := h c hc
  simp only [goodChar, decide_eq_true_eq] at this
  simp [this.1]

theorem leadsWith_mem (pat : List Char) :
    ∀ s, leadsWith pat s = true → ∀ x ∈ pat, x ∈ s := by
  induction pat with
  | nil => intro s _ x hx; simp at hx
  | cons p ps ih =>
    intro s hlw x hx
    cases s with
    | nil => simp [leadsWith] at hlw
    | cons c cs =>
      simp only [leadsWith, Bool.and_eq_true, beq_iff_eq] at hlw
      rcases List.mem_cons.mp hx with rfl | hx2
      · simp [hlw.1]
      · exact List.mem_cons_of_mem _ (ih cs hlw.2 x hx2)

theorem pyReplaceF_id (pat rep : List Char) (a : Char) (ha : a ∈ pat) :
    ∀ s fuel, a ∉ s → s.length ≤ fuel → pyReplaceF pat rep fuel s = s := by
  intro s
  induction s with
  | nil => intro fuel _ _; cases fuel <;> rfl
  | cons c cs ih =>
    intro fuel hnm hlen
    rw [List.length_cons] at hlen
    obtain ⟨g, rfl⟩ : ∃ g, fuel = g + 1 := ⟨fuel - 1, by omega⟩
    rw [pyReplaceF.eq_def]
    simp only []
    have hlw : leadsWith pat (c :: cs) = false := by
      cases hl : leadsWith pat (c :: cs) with
      | false => rfl
      | true => exact absurd (leadsWith_mem pat (c :: cs) hl a ha) hnm
    rw [hlw]
    simp only [Bool.false_and, if_neg (by simp : ¬ (false = true))]
    rw [ih g (fun hm => hnm (List.mem_cons_of_mem _ hm)) (by omega)]

theorem pyReplace_id (pat rep s : List Char) (a : Char) (ha : a ∈ pat) (hs : a ∉ s) :
    pyReplace pat rep s = s :=
  pyReplaceF_id pat rep a ha s s.length hs (Nat.le_refl _)

theorem good_not_mem (s : List Char) (h : goodStr s = true) (x : Char)
    (hx : goodChar x = false) : x ∉ s := by
  intro hm
  simp only [goodStr, List.all_eq_true] at h
  have := h x hm
  rw [hx] at this
  exact absurd this (by simp)

theorem repairText_good (s : List Char) (h : goodStr s = true) : repairText s = s := by
  rw [repairText,
    pyReplace_id [squote] _ s squote (by decide) (good_not_mem s h squote (by decide)),
    pyReplace_id (("True").data) _ s 'T' (by decide) (good_not_mem s h 'T' (by decide)),
    pyReplace_id (("False").data) _ s 'F' (by decide) (good_not_mem s h 'F' (by decide)),
    pyReplace_id (("None").data) _ s 'N' (by decide) (good_not_mem s h 'N' (by decide)),
    pyReplace_id ((",\n\x7d").data) _ s '\n' (by decide) (good_not_mem s h '\n' (by decide))]

theorem pyStrip_id (s : List Char) (a b : Char) (ha : s.head? = some a)
    (hA : pyIsSpace a = false) (hb : s.getLast? = some b) (hB : pyIsSpace b = false) :
    pyStrip s = s := by
  obtain ⟨t, rfl⟩ : ∃ t, s = a :: t := by
    cases s with
    | nil => simp at ha
    | cons x xs =>
      simp only [List.head?_cons, Option.some.injEq] at ha
      exact ⟨xs, by rw [ha]⟩
  obtain ⟨ys, hys⟩ := List.getLast?_eq_some_iff.mp hb
  rw [pyStrip, List.dropWhile_cons, if_neg (by simp [hA])]
  rw [hys]
  simp only [List.reverse_append, List.reverse_cons, List.reverse_nil, List.nil_append,
    List.singleton_append]
  rw [List.dropWhile_cons, if_neg (by simp [hB])]
  simp [List.reverse_cons, List.reverse_reverse]

theorem stripLeadingFence_lbrace (s : List Char) (h : s.head? = some '{') :
    stripLeadingFence s = s := by
  obtain ⟨t, rfl⟩ : ∃ t, s = '{' :: t := by
    cases s with
    | nil => simp at h
    | cons x xs =>
      simp only [List.head?_cons, Option.some.injEq] at h
      exact ⟨xs, by rw [h]⟩
  rw [stripLeadingFence]
  simp only [List.dropWhile_cons, if_neg (by decide : ¬ (pyIsSpace '{' = true))]
  rw [if_neg]
  intro heq
  rw [(show List.take 3 ('{' :: t) = '{' :: List.take 2 t by rfl)] at heq
  injection heq with h1 _
  exact absurd h1 (by decide)

theorem renderReply_getLast (b f : List (List Char)) (cc : List Char) (o e : List (List Char)) :
    (renderReply b f cc o e).getLast? = some '}' := by
  rw [renderReply]
  exact List.getLast?_concat _

theorem repairedOf_renderReply (b f : List (List Char)) (cc : List Char)
    (o e : List (List Char))
    (hb : safeStrs b = true) (hf : safeStrs f = true) (hcc : safeStr cc = true)
    (ho : safeStrs o = true) (he : safeStrs e = true) :
    repairedOf (renderReply b f cc o e) = renderReply b f cc o e := by
  have hgood := goodStr_renderReply b f cc o e hb hf hcc ho he
  rw [repairedOf, cleanPipeline,
    pyStrip_id (renderReply b f cc o e) '{' '}' rfl (by decide)
      (renderReply_getLast b f cc o e) (by decide),
    stripLeadingFence_lbrace (renderReply b f cc o e) rfl,
    stripControl_id _ hgood, repairText_good _ hgood]

theorem stripLeadingFence_fenced (R : List Char) :
    stripLeadingFence ((("```json\n").data) ++ R) = '\n' :: R := by
  rw [(show (("```json\n").data) ++ R =
    backtick :: backtick :: backtick :: 'j' :: 's' :: 'o' :: 'n' :: '\n' :: R by rfl)]
  rw [stripLeadingFence]
  simp only [List.dropWhile_cons, if_neg (by decide : ¬ (pyIsSpace backtick = true))]
  rw [if_pos (by rfl), if_pos (by rfl)]
  rfl

theorem stripControl_cons_nl (X : List Char) :
    stripControl ('\n' :: X) = stripControl X := by
  simp [stripControl, List.filter_cons]

theorem parseValue_hash (fuel : Nat) (cs : List Char)
    (h : (skipWs cs).head? = some '#') : parseValue fuel cs = none := by
  cases fuel with
  | zero => rfl
  | succ f =>
    rw [parseValue.eq_def]
    simp only []
    cases hsk : skipWs cs with
    | nil => rfl
    | cons c rest =>
      rw [hsk] at h
      simp only [List.head?_cons, Option.some.injEq] at h
      subst h
      simp

theorem jsonLoads_none_of_hash (s : List Char) (h : (skipWs s).head? = some '#') :
    jsonLoads s = none := by
  rw [jsonLoads, parseValue_hash _ s h]

/-- Claim C1, counterexample: a parsed reply that is an object missing four
of the five required keys is returned as-is by the extraction of
analyze_code — a partially populated record with no error field — refuting
the claim that such replies yield a result with only error set. -/
theorem claim1_counterexample :
    analyzeExtract (("\x7b\"bugs\": []\x7d").data) =
      Json.obj [((("bugs").data), Json.arr [])] ∧
    jGet (analyzeExtract (("\x7b\"bugs\": []\x7d").data)) (("error").data) = none ∧
    jGet (analyzeExtract (("\x7b\"bugs\": []\x7d").data)) (("explanation").data) = none :=
  ⟨rfl, rfl, rfl⟩

/-- Claim C1, amended: analyze_code performs no key or type validation on
the parsed reply; whenever json.loads succeeds on the repaired text, the
parsed value is returned unchanged, keys missing or not; only a parse
failure produces the error-only record. -/
theorem claim1_no_key_validation (t : List Char) (v : Json)
    (h : jsonLoads (repairedOf t) = some v) : analyzeExtract t = v := by
  simp [analyzeExtract, h]

/-- Witness for claim C1 amended at a concrete one-key reply. -/
theorem claim1_no_key_validation_witness :
    analyzeExtract (("\x7b\"fixes\": []\x7d").data) =
      Json.obj [((("fixes").data), Json.arr [])] :=
  claim1_no_key_validation _ _ rfl

/-- Claim C2: the extraction step of analyze_code is a total function that
never propagates an exception; every reply either yields the value parsed
by json.loads from the repaired text, or a dict whose only member is the
key error. -/
theorem claim2_error_only_failures (reply : ModelReply) :
    (∃ m, analyze_code reply = Json.obj [((("error").data), Json.str m)]) ∨
    (∃ t v, reply = ModelReply.success t ∧ jsonLoads (repairedOf t) = some v ∧
      analyze_code reply = v) := by
  cases reply with
  | failure e => exact Or.inl ⟨(("Analysis failed: ").data) ++ e, rfl⟩
  | success t =>
    cases h : jsonLoads (repairedOf t) with
    | none =>
      refine Or.inl ⟨(("Failed to parse AI response").data), ?_⟩
      simp [analyze_code, analyzeExtract, h, errorObj]
    | some v =>
      exact Or.inr ⟨t, v, rfl, h, by simp [analyze_code, analyzeExtract, h]⟩

/-- Claim C3, counterexample: a reply embedding a balanced five-key JSON
object inside prose fails the single json.loads attempt, and analyze_code
returns the error dict — there is no bracket-matching fallback that would
recover the embedded object. -/
theorem claim3_counterexample :
    analyzeExtract (("Here is the result: \x7b\"bugs\": [], \"fixes\": [], \"corrected_code\": \"\", \"optimizations\": [], \"explanation\": []\x7d Hope that helps!").data) = errorObj ∧
    jGet errorObj (("bugs").data) = none :=
  ⟨rfl, rfl⟩

/-- Claim C3, amended: the extraction attempts exactly one parse, of the
repaired cleaned text; whenever that parse fails — as it does for JSON
embedded in surrounding prose — the error dict is returned, with no
bracket-matching retry. -/
theorem claim3_no_bracket_fallback (t : List Char)
    (h : jsonLoads (repairedOf t) = none) : analyzeExtract t = errorObj := by
  simp [analyzeExtract, h]

/-- Witness for claim C3 amended at a concrete non-JSON reply. -/
theorem claim3_no_bracket_fallback_witness :
    analyzeExtract (("no json at all").data) = errorObj :=
  claim3_no_bracket_fallback _ rfl

/-- Claim C4, counterexample: the markdown-heading reply of the
specification scenario produces the error dict; no heading or bullet
content is extracted into any field. -/
theorem claim4_counterexample :
    analyzeExtract (("### CORRECTED CODE\n```python\nprint(1)\n```\n### ERROR EXPLANATION\n- none\n### OPTIMIZATION RECOMMENDATIONS\n- none").data) = errorObj ∧
    jGet errorObj (("corrected_code").data) = none :=
  ⟨rfl, rfl⟩

/-- Claim C4, amended: analyze_code has no markdown fallback tier; any
reply whose repaired text starts with a hash character — in particular
every heading-styled reply with no JSON — fails the parse and yields the
error dict. -/
theorem claim4_no_markdown_fallback (t : List Char)
    (h : (skipWs (repairedOf t)).head? = some '#') :
    analyzeExtract t = errorObj := by
  simp [analyzeExtract, jsonLoads_none_of_hash _ h]

/-- Witness for claim C4 amended at a concrete heading-styled reply. -/
theorem claim4_no_markdown_fallback_witness :
    analyzeExtract (("### BUGS\n- missing semicolon").data) = errorObj :=
  claim4_no_markdown_fallback _ rfl

/-- Claim C5, counterexample: a well-formed five-key JSON reply wrapped in
a markdown fence WITH a closing fence line fails the parse: the regex of
line 178 is anchored at the start of the text only, so the trailing fence
survives cleaning and json.loads rejects the extra data; analyze_code
returns the error dict instead of the claimed successful direct parse. -/
theorem claim5_counterexample :
    analyzeExtract (("```json\n\x7b\"bugs\": [], \"fixes\": [], \"corrected_code\": \"x\", \"optimizations\": [], \"explanation\": []\x7d\n```").data) = errorObj ∧
    jGet errorObj (("optimizations").data) = none :=
  ⟨rfl, rfl⟩

/-- Claim C5, amended: the cleaning strips only a LEADING markdown fence
(```json or ```), together with control characters; consequently a
five-key JSON reply wrapped in an opening fence with NO closing fence line
parses successfully and is returned field-for-field, for every choice of
list and string contents made of safe characters. -/
theorem claim5_leading_fence_only (b f : List (List Char)) (cc : List Char)
    (o e : List (List Char))
    (hb : safeStrs b = true) (hf : safeStrs f = true) (hcc : safeStr cc = true)
    (ho : safeStrs o = true) (he : safeStrs e = true) :
    analyzeExtract ((("```json\n").data) ++ renderReply b f cc o e) =
      replyJson b f cc o e := by
  have hgood := goodStr_renderReply b f cc o e hb hf hcc ho he
  have hlast : ((("```json\n").data) ++ renderReply b f cc o e).getLast? = some '}' := by
    rw [List.getLast?_append, renderReply_getLast]
    rfl
  rw [analyzeExtract, repairedOf, cleanPipeline,
    pyStrip_id ((("```json\n").data) ++ renderReply b f cc o e) backtick '}' rfl
      (by decide) hlast (by decide),
    stripLeadingFence_fenced, stripControl_cons_nl,
    stripControl_id _ hgood, repairText_good _ hgood,
    jsonLoads_renderReply b f cc o e hb hf hcc ho he]

/-- Witness for claim C5 amended at concrete safe contents. -/
theorem claim5_leading_fence_only_witness :
    analyzeExtract ((("```json\n").data) ++
      renderReply [(("bug one").data)] [] (("print(1)").data) [] [(("ok").data)]) =
      replyJson [(("bug one").data)] [] (("print(1)").data) [] [(("ok").data)] :=
  claim5_leading_fence_only _ _ _ _ _ (by decide) (by decide) (by decide)
    (by decide) (by decide)

/-- Claim C6, counterexample: the repair pass of lines 180-186 rewrites
inside string values: a well-formed five-key reply whose corrected_code
value contains the word True comes back with true instead — the fields are
not returned verbatim. -/
theorem claim6_counterexample :
    analyzeExtract (("\x7b\"bugs\": [], \"fixes\": [], \"corrected_code\": \"True story\", \"optimizations\": [], \"explanation\": []\x7d").data) =
      Json.obj [((("bugs").data), Json.arr []), ((("fixes").data), Json.arr []),
        ((("corrected_code").data), Json.str (("true story").data)),
        ((("optimizations").data), Json.arr []),
        ((("explanation").data), Json.arr [])] ∧
    (("true story").data) ≠ (("True story").data) :=
  ⟨rfl, by decide⟩

/-- Claim C6, amended: the round trip holds once string contents avoid the
characters rewritten by the repair pass: for every five-key reply in
canonical rendering whose string contents contain no double quote,
backslash, single quote, control character, and none of the characters T,
F, N, the extraction of analyze_code returns exactly the input fields. -/
theorem claim6_round_trip (b f : List (List Char)) (cc : List Char)
    (o e : List (List Char))
    (hb : safeStrs b = true) (hf : safeStrs f = true) (hcc : safeStr cc = true)
    (ho : safeStrs o = true) (he : safeStrs e = true) :
    analyzeExtract (renderReply b f cc o e) = replyJson b f cc o e := by
  rw [analyzeExtract, repairedOf_renderReply b f cc o e hb hf hcc ho he,
    jsonLoads_renderReply b f cc o e hb hf hcc ho he]

/-- Witness for claim C6 amended at concrete safe contents. -/
theorem claim6_round_trip_witness :
    analyzeExtract (renderReply [(("line 5: missing semicolon").data)]
      [(("add semicolon").data)] (("print(2)").data) [] [(("done").data)]) =
      replyJson [(("line 5: missing semicolon").data)] [(("add semicolon").data)]
        (("print(2)").data) [] [(("done").data)] :=
  claim6_round_trip _ _ _ _ _ (by decide) (by decide) (by decide) (by decide) (by decide)

theorem ocrLoop_three (call : Nat → Except OcrExn VisionResponse) :
    ocrLoop call 3 0 = (match call 0 with
      | Except.ok r => (Except.ok r, ([] : List Nat), 1)
      | Except.error _ =>
        match call 1 with
        | Except.ok r => (Except.ok r, ([1] : List Nat), 2)
        | Except.error _ => (call 2, ([1, 2] : List Nat), 3)) := by
  have e3 : ocrLoop call 3 0 = (match call 0 with
      | Except.ok r => (Except.ok r, ([] : List Nat), 1)
      | Except.error _ => ((ocrLoop call 2 1).1, 2 ^ 0 :: (ocrLoop call 2 1).2.1,
          (ocrLoop call 2 1).2.2 + 1)) := rfl
  have e2 : ocrLoop call 2 1 = (match call 1 with
      | Except.ok r => (Except.ok r, ([] : List Nat), 1)
      | Except.error _ => ((ocrLoop call 1 2).1, 2 ^ 1 :: (ocrLoop call 1 2).2.1,
          (ocrLoop call 1 2).2.2 + 1)) := rfl
  have e1 : ocrLoop call 1 2 = (call 2, [], 1) := rfl
  rw [e3, e2, e1]
  rcases call 0 with e0 | r0
  · rcases call 1 with e1' | r1
    · rcases call 2 with e2' | r2 <;> simp
    · simp
  · simp

theorem claim8_retry_backoff_no_raise (hasCreds : Bool)
    (call : Nat → Except OcrExn VisionResponse) :
    (extract_code_from_image hasCreds call).2.2 ≤ 3 ∧
    (extract_code_from_image hasCreds call).2.1 =
      (List.range ((extract_code_from_image hasCreds call).2.2 - 1)).map (fun i => 2 ^ i) ∧
    ((extract_code_from_image hasCreds call).1.1 = false →
      ((extract_code_from_image hasCreds call).1.2 = ("Missing Google Cloud credentials").data ∨
       (extract_code_from_image hasCreds call).1.2 = ("OCR processing timed out").data ∨
       (∃ m, (extract_code_from_image hasCreds call).1.2 = (("API Error: ").data) ++ m) ∨
       (∃ m, (extract_code_from_image hasCreds call).1.2 = (("Processing Error: ").data) ++ m) ∨
       (extract_code_from_image hasCreds call).1.2 = ("No text detected").data)) := by
  cases hasCreds with
  | false =>
    refine ⟨by simp [extract_code_from_image], by simp [extract_code_from_image, List.range_succ],
      fun _ => Or.inl rfl⟩
  | true =>
    have hu : extract_code_from_image true call =
        (match ocrLoop call 3 0 with
         | (Except.error e, sleeps, n) =>
           ((false,
             match e with
             | OcrExn.timeoutExn => ("OCR processing timed out").data
             | OcrExn.apiCallExn m => (("API Error: ").data) ++ m
             | OcrExn.otherExn m => (("Processing Error: ").data) ++ m), sleeps, n)
         | (Except.ok resp, sleeps, n) =>
           if resp.errorMessage ≠ [] then
             ((false, (("API Error: ").data) ++ resp.errorMessage), sleeps, n)
           else
             match resp.textBlocks with
             | [] => ((false, ("No text detected").data), sleeps, n)
             | t :: _ => ((true, cleanOcr t), sleeps, n)) := rfl
    rw [hu, ocrLoop_three call]
    rcases call 0 with e0 | r0
    · rcases call 1 with e1' | r1
      · rcases call 2 with e2' | r2
        · rcases e2' with _ | m | m
          · exact ⟨by simp, by simp [List.range_succ], fun _ => Or.inr (Or.inl rfl)⟩
          · exact ⟨by simp, by simp [List.range_succ], fun _ => Or.inr (Or.inr (Or.inl ⟨m, rfl⟩))⟩
          · exact ⟨by simp, by simp [List.range_succ], fun _ => Or.inr (Or.inr (Or.inr (Or.inl ⟨m, rfl⟩)))⟩
        · by_cases he : r2.errorMessage = []
          · cases ht : r2.textBlocks with
            | nil =>
              simp only [he, ht]
              exact ⟨by simp, by simp [List.range_succ], fun _ => Or.inr (Or.inr (Or.inr (Or.inr rfl)))⟩
            | cons t ts =>
              simp only [he, ht]
              exact ⟨by simp, by simp [List.range_succ], fun h => absurd h (by simp)⟩
          · simp only [if_pos he]
            exact ⟨by simp, by simp [List.range_succ],
              fun _ => Or.inr (Or.inr (Or.inl ⟨r2.errorMessage, rfl⟩))⟩
      · by_cases he : r1.errorMessage = []
        · cases ht : r1.textBlocks with
          | nil =>
            simp only [he, ht]
            exact ⟨by simp, by simp [List.range_succ], fun _ => Or.inr (Or.inr (Or.inr (Or.inr rfl)))⟩
          | cons t ts =>
            simp only [he, ht]
            exact ⟨by simp, by simp [List.range_succ], fun h => absurd h (by simp)⟩
        · simp only [if_pos he]
          exact ⟨by simp, by simp [List.range_succ],
            fun _ => Or.inr (Or.inr (Or.inl ⟨r1.errorMessage, rfl⟩))⟩
    · by_cases he : r0.errorMessage = []
      · cases ht : r0.textBlocks with
        | nil =>
          simp only [he, ht]
          exact ⟨by simp, by simp [List.range_succ], fun _ => Or.inr (Or.inr (Or.inr (Or.inr rfl)))⟩
        | cons t ts =>
          simp only [he, ht]
          exact ⟨by simp, by simp [List.range_succ], fun h => absurd h (by simp)⟩
      · simp only [if_pos he]
        exact ⟨by simp, by simp [List.range_succ],
          fun _ => Or.inr (Or.inr (Or.inl ⟨r0.errorMessage, rfl⟩))⟩

theorem claim7_validator_rule_order (sniff decode : List Nat → Option (List Char))
    (f : UploadedFile) :
    (MAX_IMAGE_SIZE < f.bytes.length →
      validate_image sniff f = (false, imageSizeMsg f.bytes.length)) ∧
    (f.bytes.length ≤ MAX_IMAGE_SIZE → ∀ t, sniff f.bytes = some t →
      t ∉ ALLOWED_IMAGE_TYPES → validate_image sniff f = (false, imageTypeMsg (some t))) ∧
    (f.bytes.length ≤ MAX_IMAGE_SIZE → sniff f.bytes = none →
      validate_image sniff f = (false, imageTypeMsg none)) ∧
    (extOf f.name ∉ ALLOWED_CODE_EXTENSIONS →
      validate_code_file decode f =
        (false, [], (("Unsupported file type: .").data) ++ extOf f.name)) ∧
    (extOf f.name ∈ ALLOWED_CODE_EXTENSIONS → decode f.bytes = none →
      validate_code_file decode f = (false, [], ("Invalid text encoding").data)) ∧
    (extOf f.name ∈ ALLOWED_CODE_EXTENSIONS → ∀ c, decode f.bytes = some c →
      MAX_CODE_LENGTH < c.length →
      validate_code_file decode f = (false, [], codeLenMsg c.length)) := by
  refine ⟨?_, ?_, ?_, ?_, ?_, ?_⟩
  · intro h
    simp [validate_image, h]
  · intro hle t hsn hmem
    simp [validate_image, Nat.not_lt.mpr hle, hsn, hmem]
  · intro hle hsn
    simp [validate_image, Nat.not_lt.mpr hle, hsn]
  · intro h
    simp [validate_code_file, h]
  · intro hm hd
    simp [validate_code_file, hm, hd]
  · intro hm c hd hlen
    simp [validate_code_file, hm, hd, hlen]

theorem claim9_first_block_cleaned (call : Nat → Except OcrExn VisionResponse)
    (resp : VisionResponse) (t : List Char) (rest : List (List Char))
    (h0 : call 0 = Except.ok resp) (he : resp.errorMessage = [])
    (ht : resp.textBlocks = t :: rest) :
    extract_code_from_image true call =
      ((true, rmSingleNl none (pyStrip (collapseNewlines t))), [], 1) := by
  have hu : extract_code_from_image true call =
      (match ocrLoop call 3 0 with
       | (Except.error e, sleeps, n) =>
         ((false,
           match e with
           | OcrExn.timeoutExn => ("OCR processing timed out").data
           | OcrExn.apiCallExn m => (("API Error: ").data) ++ m
           | OcrExn.otherExn m => (("Processing Error: ").data) ++ m), sleeps, n)
       | (Except.ok resp, sleeps, n) =>
         if resp.errorMessage ≠ [] then
           ((false, (("API Error: ").data) ++ resp.errorMessage), sleeps, n)
         else
           match resp.textBlocks with
           | [] => ((false, ("No text detected").data), sleeps, n)
           | t :: _ => ((true, cleanOcr t), sleeps, n)) := rfl
  rw [hu, ocrLoop_three call, h0]
  simp [he, ht, cleanOcr]

theorem claim10_sniff_only_acceptance (sniff : List Nat → Option (List Char))
    (f : UploadedFile) :
    ((validate_image sniff f).1 = true ↔
      (f.bytes.length ≤ MAX_IMAGE_SIZE ∧
        ∃ t, sniff f.bytes = some t ∧ t ∈ ALLOWED_IMAGE_TYPES)) ∧
    (∀ n2, validate_image sniff { name := n2, bytes := f.bytes } =
      validate_image sniff f) ∧
    (f.bytes.length ≤ MAX_IMAGE_SIZE → sniff f.bytes = none →
      validate_image sniff f = (false, (("Unsupported format: unknown").data))) := by
  refine ⟨?_, fun n2 => rfl, ?_⟩
  · by_cases hs : MAX_IMAGE_SIZE < f.bytes.length
    · simp [validate_image, hs]
    · cases ht : sniff f.bytes with
      | none => simp [validate_image, hs, ht]
      | some t =>
        by_cases hm : t ∈ ALLOWED_IMAGE_TYPES
        · simp [validate_image, hs, ht, hm]
          omega
        · simp [validate_image, hs, ht, hm]
  · intro hle hsn
    simp [validate_image, Nat.not_lt.mpr hle, hsn, imageTypeMsg]

theorem bigImageBytes_len : bigImageBytes.length = 5242881 := by
  rw [bigImageBytes, List.length_replicate]

theorem longCode_len : longCode.length = 5001 := by
  rw [longCode, List.length_replicate]

theorem claim7_validator_rule_order_witness :
    validate_image (fun _ => some (("png").data)) ⟨[], bigImageBytes⟩ =
      (false, imageSizeMsg bigImageBytes.length) ∧
    validate_image (fun _ => some (("gif").data)) ⟨[], [0]⟩ =
      (false, imageTypeMsg (some (("gif").data))) ∧
    validate_image (fun _ => none) ⟨[], [0]⟩ = (false, imageTypeMsg none) ∧
    validate_code_file (fun _ => some []) ⟨(("a.txt").data), [0]⟩ =
      (false, [], (("Unsupported file type: .").data) ++ extOf (("a.txt").data)) ∧
    validate_code_file (fun _ => none) ⟨(("a.py").data), [0]⟩ =
      (false, [], ("Invalid text encoding").data) ∧
    validate_code_file (fun _ => some longCode) ⟨(("a.py").data), [0]⟩ =
      (false, [], codeLenMsg longCode.length) := by
  refine ⟨?_, ?_, ?_, ?_, ?_, ?_⟩
  · exact (claim7_validator_rule_order (fun _ => some (("png").data)) (fun _ => none)
      ⟨[], bigImageBytes⟩).1
      (by show MAX_IMAGE_SIZE < bigImageBytes.length; rw [bigImageBytes_len]; norm_num [MAX_IMAGE_SIZE])
  · exact (claim7_validator_rule_order (fun _ => some (("gif").data)) (fun _ => none)
      ⟨[], [0]⟩).2.1 (by norm_num [MAX_IMAGE_SIZE]) _ rfl (by decide)
  · exact (claim7_validator_rule_order (fun _ => none) (fun _ => none)
      ⟨[], [0]⟩).2.2.1 (by norm_num [MAX_IMAGE_SIZE]) rfl
  · exact (claim7_validator_rule_order (fun _ => none) (fun _ => some [])
      ⟨(("a.txt").data), [0]⟩).2.2.2.1 (by decide)
  · exact (claim7_validator_rule_order (fun _ => none) (fun _ => none)
      ⟨(("a.py").data), [0]⟩).2.2.2.2.1 (by decide) rfl
  · exact (claim7_validator_rule_order (fun _ => none)
      (fun _ => some longCode) ⟨(("a.py").data), [0]⟩).2.2.2.2.2 (by decide) _
      rfl (by show MAX_CODE_LENGTH < longCode.length; rw [longCode_len]; norm_num [MAX_CODE_LENGTH])

theorem claim8_retry_backoff_no_raise_witness :
    (extract_code_from_image true (fun _ => Except.error OcrExn.timeoutExn)).1.2 =
        ("Missing Google Cloud credentials").data ∨
    (extract_code_from_image true (fun _ => Except.error OcrExn.timeoutExn)).1.2 =
        ("OCR processing timed out").data ∨
    (∃ m, (extract_code_from_image true (fun _ => Except.error OcrExn.timeoutExn)).1.2 =
        (("API Error: ").data) ++ m) ∨
    (∃ m, (extract_code_from_image true (fun _ => Except.error OcrExn.timeoutExn)).1.2 =
        (("Processing Error: ").data) ++ m) ∨
    (extract_code_from_image true (fun _ => Except.error OcrExn.timeoutExn)).1.2 =
        ("No text detected").data :=
  (claim8_retry_backoff_no_raise true (fun _ => Except.error OcrExn.timeoutExn)).2.2 rfl

theorem claim9_counterexample :
    extract_code_from_image true (fun _ => Except.ok ⟨[], [(("a\nb").data)]⟩) =
      ((true, (("a b").data)), [], 1) ∧
    specCollapseTrim (("a\nb").data) = (("a\nb").data) ∧
    (("a b").data) ≠ (("a\nb").data) :=
  ⟨rfl, rfl, by decide⟩

theorem claim9_first_block_cleaned_witness :
    extract_code_from_image true (fun _ => Except.ok ⟨[], [(("x\n\n\n\ny").data)]⟩) =
      ((true, rmSingleNl none (pyStrip (collapseNewlines (("x\n\n\n\ny").data)))), [], 1) :=
  claim9_first_block_cleaned _ ⟨[], [(("x\n\n\n\ny").data)]⟩ _ _ rfl rfl rfl

theorem claim10_sniff_only_acceptance_witness :
    validate_image (fun _ => none) ⟨(("shot.png").data), [0, 1, 2]⟩ =
      (false, (("Unsupported format: unknown").data)) :=
  (claim10_sniff_only_acceptance (fun _ => none) ⟨(("shot.png").data), [0, 1, 2]⟩).2.2
    (by norm_num [MAX_IMAGE_SIZE]) rfl
